import Mathlib

/-!
Verification of the time-series viewport data loader of the
`nicomaag/gold-trading-platform` frontend.

The definitions below are a shallow embedding of the loader code:

* `normalizeTimeTsx`, `chartDataOfTsx`, `mergeOlder`, `fetchData`,
  `selectionChange`, `resolve` embed `src/frontend/src/pages/MarketPage.tsx`
  (the `fetchData` callback and the selection-change effect);
* `normalizeTimeP1`, `p1FetchData`, `p1AutoTick` embed the loader variant in
  `src/unnamed/part_001` (its `fetchData` and the auto-update interval);
* `chartDataUpdate` embeds the data-update effect of
  `src/frontend/src/components/CandleChart.tsx` (also `src/unnamed/part_007`).

JavaScript numbers are modelled as rationals (all arithmetic performed by the
loader is exact on the values involved), `Array.prototype.sort` with the
comparator `(a, b) => a.time - b.time` is modelled as a stable insertion sort,
and `new Date(x).getTime()` is modelled by `jsDateMs`.
-/

namespace GoldLoader

/-- The raw `time` field of one record of a `/candles` response.
`iso s` stands for an ISO-8601 timestamp string denoting the instant `s`
seconds since the epoch; `num n` stands for a JSON number `n`, which the API
contract documents as epoch seconds. -/
inductive RawTime
  | iso (s : Int)
  | num (n : Int)
deriving DecidableEq

/-- JavaScript `new Date(x).getTime()`, in milliseconds since the epoch:
parsing an ISO-8601 string for instant `s` yields `1000 * s`; constructing a
`Date` from a number interprets that number as milliseconds. -/
def jsDateMs : RawTime → Int
  | .iso s => 1000 * s
  | .num n => n

/-- One record of the JSON response, before normalization. -/
structure RawCandle where
  time : RawTime
  open_ : ℚ
  high : ℚ
  low : ℚ
  close : ℚ
deriving DecidableEq

/-- One normalized OHLC candle as held in the React `data` state. -/
structure Candle where
  time : ℚ
  open_ : ℚ
  high : ℚ
  low : ℚ
  close : ℚ
deriving DecidableEq

/-- Embeds `MarketPage.tsx` line 58: `time: new Date(d.time).getTime() / 1000`
(no `typeof` branch: every raw time value goes through `new Date`). -/
def normalizeTimeTsx (t : RawTime) : ℚ := (jsDateMs t : ℚ) / 1000

/-- Embeds `src/unnamed/part_001` lines 59-61:
`typeof d.time === 'string' ? new Date(d.time).getTime() / 1000 : d.time`. -/
def normalizeTimeP1 : RawTime → ℚ
  | .iso s => (jsDateMs (.iso s) : ℚ) / 1000
  | .num n => (n : ℚ)

/-- The record mapping of `MarketPage.tsx` lines 57-63. -/
def normalizeTsx (d : RawCandle) : Candle :=
  { time := normalizeTimeTsx d.time
    open_ := d.open_, high := d.high, low := d.low, close := d.close }

/-- The record mapping of `src/unnamed/part_001` lines 57-70. -/
def normalizeP1 (d : RawCandle) : Candle :=
  { time := normalizeTimeP1 d.time
    open_ := d.open_, high := d.high, low := d.low, close := d.close }

/-- The comparison underlying the JS comparator `(a, b) => a.time - b.time`. -/
def timeLE (a b : Candle) : Prop := a.time ≤ b.time

instance : DecidableRel timeLE := fun a b =>
  inferInstanceAs (Decidable (a.time ≤ b.time))

instance : IsTotal Candle timeLE := ⟨fun a b => le_total a.time b.time⟩

instance : IsTrans Candle timeLE := ⟨fun _ _ _ h h2 => le_trans h h2⟩

/-- Embeds `chartData.sort((a, b) => a.time - b.time)`: a stable sort by `time`
(ECMAScript `Array.prototype.sort` is required to be stable). -/
def sortByTime (l : List Candle) : List Candle := List.insertionSort timeLE l

/-- The full response pipeline of `MarketPage.tsx` lines 57-65:
map every raw record through normalization, then sort by time. -/
def chartDataOfTsx (raw : List RawCandle) : List Candle :=
  sortByTime (raw.map normalizeTsx)

/-- The `isLoadMore` branch of `MarketPage.tsx` lines 68-76: drop incoming
candles whose `time` is already present, prepend the remaining ones, re-sort. -/
def mergeOlder (prev incoming : List Candle) : List Candle :=
  let existingTimes := prev.map Candle.time
  let uniqueNewData := incoming.filter fun d => !decide (d.time ∈ existingTimes)
  sortByTime (uniqueNewData ++ prev)

theorem mem_sortByTime {c : Candle} {l : List Candle} :
    c ∈ sortByTime l ↔ c ∈ l :=
  (List.perm_insertionSort timeLE l).mem_iff

theorem length_sortByTime (l : List Candle) :
    (sortByTime l).length = l.length :=
  (List.perm_insertionSort timeLE l).length_eq

theorem sorted_sortByTime (l : List Candle) :
    List.Sorted timeLE (sortByTime l) :=
  List.sorted_insertionSort timeLE l

theorem sortByTime_eq_of_sorted {l : List Candle}
    (h : List.Sorted timeLE l) : sortByTime l = l :=
  List.Sorted.insertionSort_eq h

theorem map_time_sortByTime_perm (l : List Candle) :
    List.Perm ((sortByTime l).map Candle.time) (l.map Candle.time) :=
  (List.perm_insertionSort timeLE l).map Candle.time

theorem mem_mergeOlder {c : Candle} {prev incoming : List Candle} :
    c ∈ mergeOlder prev incoming ↔
      (c ∈ incoming ∧ c.time ∉ prev.map Candle.time) ∨ c ∈ prev := by
  unfold mergeOlder
  rw [mem_sortByTime, List.mem_append, List.mem_filter]
  simp

/-- An in-flight network request of `MarketPage.tsx`: the generation counter of
the (symbol, timeframe) selection that was active when it was issued (the
spec's FetchToken concept, recorded here as bookkeeping so that staleness can
be stated; the code itself stores no such token), and the `isLoadMore`
argument it was called with. -/
structure Request where
  token : Nat
  isLoadMore : Bool
deriving DecidableEq

/-- The loader-relevant component state of `MarketPage.tsx`: the number of
selection activations so far (`token`), the `data` state (mirrored by
`dataRef`), the `loadingRef` guard, and the requests currently in flight. -/
structure MPState where
  token : Nat
  data : List Candle
  loadingRef : Bool
  inflight : List Request
deriving DecidableEq

/-- Component state at mount: empty series, not loading, nothing in flight. -/
def mpInit : MPState := { token := 0, data := [], loadingRef := false, inflight := [] }

/-- The synchronous prefix of `fetchData` (`MarketPage.tsx` lines 23-46): if
`loadingRef.current` is set the call returns at once (no network request,
nothing queued); otherwise the guard is taken and a request is issued carrying
the currently active selection. The boolean reports whether a network call
was issued. -/
def fetchData (s : MPState) (isLoadMore : Bool) : MPState × Bool :=
  if s.loadingRef then (s, false)
  else
    ({ s with loadingRef := true
              inflight := s.inflight ++ [{ token := s.token, isLoadMore := isLoadMore }] },
     true)

/-- The selection-change effect (`MarketPage.tsx` lines 93-97): a new
activation begins, the series is cleared, and `fetchData(false)` runs
(subject to the `loadingRef` guard). -/
def selectionChange (s : MPState) : MPState :=
  (fetchData { s with token := s.token + 1, data := [] } false).1

/-- The continuation run when the request `r` resolves with body `raw`
(`MarketPage.tsx` lines 50-89): an empty body returns early (the `finally`
block still clears `loadingRef`); otherwise the normalized, sorted batch is
applied — merged for `isLoadMore`, wholesale `setData` otherwise. No token or
selection check of any kind occurs. -/
def resolve (s : MPState) (r : Request) (raw : List RawCandle) : MPState :=
  if raw = [] then
    { s with loadingRef := false, inflight := s.inflight.erase r }
  else
    let chartData := chartDataOfTsx raw
    let newData := if r.isLoadMore then mergeOlder s.data chartData else chartData
    { s with data := newData, loadingRef := false, inflight := s.inflight.erase r }

/-- An in-flight request of the `src/unnamed/part_001` variant: `viaGuard` is
true when it was issued through `fetchData` (which consults `isLoadingRef`)
and false when it was issued by the auto-update interval callback (which
calls `fetch` directly). -/
structure P1Req where
  viaGuard : Bool
deriving DecidableEq

/-- The loader-relevant component state of the `src/unnamed/part_001`
variant. -/
structure P1State where
  data : List Candle
  isLoadingRef : Bool
  inflight : List P1Req
deriving DecidableEq

/-- The synchronous prefix of `fetchData` in `src/unnamed/part_001`
(lines 23-31): blocked while `isLoadingRef.current` is set, otherwise takes
the guard and issues a request. -/
def p1FetchData (s : P1State) (_isLoadMore : Bool) : P1State × Bool :=
  if s.isLoadingRef then (s, false)
  else
    ({ s with isLoadingRef := true, inflight := s.inflight ++ [{ viaGuard := true }] },
     true)

/-- One tick of the auto-update interval in `src/unnamed/part_001`
(lines 118-139): the callback calls `fetch(...)` directly — it neither reads
nor sets `isLoadingRef`, so a network call is issued unconditionally. -/
def p1AutoTick (s : P1State) : P1State × Bool :=
  ({ s with inflight := s.inflight ++ [{ viaGuard := false }] }, true)

/-- The data-update effect of `CandleChart.tsx` lines 305-336 (identical in
`src/unnamed/part_007` lines 86-126), reduced to what it does to the stored
visible logical range and to `prevDataLengthRef`: an empty `data` returns
early; a first non-empty `data` fits content (modelled as the full index
range, the rendering surface's `fitContent`); growth shifts the current
visible range by the length difference; otherwise the range is untouched. -/
def chartDataUpdate (prevLen : Nat) (currentRange : Option (Int × Int))
    (data : List Candle) : Option (Int × Int) × Nat :=
  if data.length = 0 then (currentRange, prevLen)
  else if prevLen = 0 then (some (0, (data.length : Int) - 1), data.length)
  else if prevLen < data.length then
    let addedCount : Int := (data.length : Int) - (prevLen : Int)
    ((match currentRange with
      | some (f, t) => some (f + addedCount, t + addedCount)
      | none => none),
     data.length)
  else (currentRange, data.length)

theorem sorted_mergeOlder (prev incoming : List Candle) :
    List.Sorted timeLE (mergeOlder prev incoming) := by
  unfold mergeOlder
  exact sorted_sortByTime _

theorem mem_time_mergeOlder {t : ℚ} {prev incoming : List Candle} :
    t ∈ (mergeOlder prev incoming).map Candle.time ↔
      (∃ c ∈ incoming, c.time = t ∧ t ∉ prev.map Candle.time) ∨
        t ∈ prev.map Candle.time := by
  unfold mergeOlder
  rw [(map_time_sortByTime_perm _).mem_iff, List.map_append, List.mem_append]
  simp only [List.mem_map, List.mem_filter, Bool.not_eq_eq_eq_not, Bool.not_true,
    decide_eq_false_iff_not]
  constructor
  · rintro (⟨c, ⟨hc, hct⟩, rfl⟩ | h)
    · exact Or.inl ⟨c, hc, rfl, hct⟩
    · exact Or.inr h
  · rintro (⟨c, hc, rfl, hct⟩ | h)
    · exact Or.inl ⟨c, ⟨hc, hct⟩, rfl⟩
    · exact Or.inr h

/-- C3. Single-flight: while a fetch is in flight (`loadingRef` set), a second
"older" trigger — `fetchData(true)` from the chart's load-more callback —
issues no network call and leaves the component state unchanged: the request
is dropped, not queued (`MarketPage.tsx` lines 23-31). -/
theorem single_flight_older (s : MPState) (h : s.loadingRef = true) :
    fetchData s true = (s, false) := by
  unfold fetchData
  rw [if_pos h]

/-- Witness for `single_flight_older`: the state right after the initial
fetch was issued has the guard held, and an "older" trigger there is a
no-op. -/
theorem single_flight_older_witness :
    (fetchData mpInit false).1.loadingRef = true ∧
      fetchData (fetchData mpInit false).1 true = ((fetchData mpInit false).1, false) :=
  ⟨by decide, single_flight_older (fetchData mpInit false).1 (by decide)⟩

/-- C9. Idempotence of the merge: merging the same batch twice produces the
same series as merging it once, for every series and every batch — the second
pass filters out every incoming timestamp (all are already present) and
re-sorting an already sorted series is the identity. -/
theorem merge_idempotent (s b : List Candle) :
    mergeOlder (mergeOlder s b) b = mergeOlder s b := by
  have hmem : ∀ x ∈ b, x.time ∈ (mergeOlder s b).map Candle.time := by
    intro x hx
    rw [mem_time_mergeOlder]
    by_cases hxs : x.time ∈ s.map Candle.time
    · exact Or.inr hxs
    · exact Or.inl ⟨x, hx, rfl, hxs⟩
  have hfil : (b.filter fun d =>
      !decide (d.time ∈ (mergeOlder s b).map Candle.time)) = [] := by
    rw [List.filter_eq_nil_iff]
    intro a ha
    simp [hmem a ha]
  show sortByTime (_ ++ mergeOlder s b) = mergeOlder s b
  rw [hfil, List.nil_append]
  exact sortByTime_eq_of_sorted (sorted_mergeOlder s b)

/-- C6. Dedup policy, first-seen wins: if a candle `c` with time `t` is
already in the series and the incoming batch contains a candle `d` with the
same time but different contents, the merged series keeps `c` and does not
contain `d` — the incoming values are discarded (`MarketPage.tsx`
lines 68-72). -/
theorem dedup_first_seen_wins (prev batch : List Candle) (c d : Candle)
    (hnodup : (prev.map Candle.time).Nodup)
    (hc : c ∈ prev) (_hd : d ∈ batch) (ht : d.time = c.time) (hne : d ≠ c) :
    c ∈ mergeOlder prev batch ∧ d ∉ mergeOlder prev batch := by
  constructor
  · exact mem_mergeOlder.2 (Or.inr hc)
  · intro hmem
    rcases mem_mergeOlder.1 hmem with ⟨_, habs⟩ | hdp
    · exact habs (ht ▸ List.mem_map_of_mem Candle.time hc)
    · exact hne (List.inj_on_of_nodup_map hnodup hdp hc ht)

/-- Witness for `dedup_first_seen_wins`: the series holds a candle at time 5
with close 1; the batch repeats time 5 with close 2; the merge keeps the
original and drops the incoming record. -/
theorem dedup_first_seen_wins_witness :
    (⟨5, 0, 0, 0, 1⟩ : Candle) ∈ mergeOlder [⟨5, 0, 0, 0, 1⟩] [⟨5, 0, 0, 0, 2⟩] ∧
      (⟨5, 0, 0, 0, 2⟩ : Candle) ∉ mergeOlder [⟨5, 0, 0, 0, 1⟩] [⟨5, 0, 0, 0, 2⟩] :=
  dedup_first_seen_wins [⟨5, 0, 0, 0, 1⟩] [⟨5, 0, 0, 0, 2⟩] ⟨5, 0, 0, 0, 1⟩ ⟨5, 0, 0, 0, 2⟩
    (by decide) (by decide) (by decide) (by decide) (by decide)

theorem pairwise_lt_of_sorted_nodup {l : List Candle}
    (hs : List.Sorted timeLE l) (hn : (l.map Candle.time).Nodup) :
    List.Pairwise (fun a b : Candle => a.time < b.time) l := by
  have hne : List.Pairwise (fun a b : Candle => a.time ≠ b.time) l :=
    List.pairwise_map.1 hn
  exact (hs.and hne).imp fun h => lt_of_le_of_ne h.1 h.2

theorem nodup_times_mergeOlder {prev incoming : List Candle}
    (hprev : (prev.map Candle.time).Nodup)
    (hinc : (incoming.map Candle.time).Nodup) :
    ((mergeOlder prev incoming).map Candle.time).Nodup := by
  have hunodup : (((incoming.filter fun d =>
      !decide (d.time ∈ prev.map Candle.time)).map Candle.time)).Nodup :=
    hinc.sublist ((List.filter_sublist _).map Candle.time)
  have hdisj : List.Disjoint
      ((incoming.filter fun d =>
        !decide (d.time ∈ prev.map Candle.time)).map Candle.time)
      (prev.map Candle.time) := by
    intro t ht hmem
    rcases List.mem_map.1 ht with ⟨c, hcmem, rfl⟩
    rw [List.mem_filter] at hcmem
    simp only [Bool.not_eq_eq_eq_not, Bool.not_true, decide_eq_false_iff_not] at hcmem
    exact hcmem.2 hmem
  have happ : (((incoming.filter fun d =>
      !decide (d.time ∈ prev.map Candle.time)) ++ prev).map Candle.time).Nodup := by
    rw [List.map_append]
    exact hunodup.append hprev hdisj
  unfold mergeOlder
  exact ((map_time_sortByTime_perm _).nodup_iff).2 happ

theorem mergeOlder_pairwise_lt {prev incoming : List Candle}
    (hp : List.Pairwise (fun a b : Candle => a.time < b.time) prev)
    (hinc : (incoming.map Candle.time).Nodup) :
    List.Pairwise (fun a b : Candle => a.time < b.time)
      (mergeOlder prev incoming) := by
  have hprevnodup : (prev.map Candle.time).Nodup :=
    hp.map Candle.time fun _ _ h => ne_of_lt h
  exact pairwise_lt_of_sorted_nodup (sorted_mergeOlder prev incoming)
    (nodup_times_mergeOlder hprevnodup hinc)

/-- C2 — amended. Sort invariant: starting from the empty series and folding
in any sequence of fetch results (each batch the normalized, sorted output of
the `MarketPage.tsx` response pipeline), the resulting series is strictly
ascending by `time` with no duplicate `time` values, PROVIDED each batch's
normalized time keys are pairwise distinct. (As stated originally the claim
fails: the pipeline never deduplicates a batch against itself, see the
counterexample `sort_invariant_counterexample`.) -/
theorem sort_invariant_merges (raws : List (List RawCandle))
    (hnodup : ∀ raw ∈ raws, ((raw.map normalizeTsx).map Candle.time).Nodup) :
    List.Pairwise (fun a b : Candle => a.time < b.time)
        (raws.foldl (fun s raw => mergeOlder s (chartDataOfTsx raw)) []) ∧
      ((raws.foldl (fun s raw => mergeOlder s (chartDataOfTsx raw)) []).map
        Candle.time).Nodup := by
  have main : ∀ (rs : List (List RawCandle)) (acc : List Candle),
      List.Pairwise (fun a b : Candle => a.time < b.time) acc →
      (∀ raw ∈ rs, ((raw.map normalizeTsx).map Candle.time).Nodup) →
      List.Pairwise (fun a b : Candle => a.time < b.time)
        (rs.foldl (fun s raw => mergeOlder s (chartDataOfTsx raw)) acc) := by
    intro rs
    induction rs with
    | nil => intro acc hacc _; exact hacc
    | cons raw rs ih =>
      intro acc hacc hrs
      rw [List.foldl_cons]
      refine ih _ ?_ fun r hr => hrs r (List.mem_cons_of_mem raw hr)
      refine mergeOlder_pairwise_lt hacc ?_
      have hperm : List.Perm ((chartDataOfTsx raw).map Candle.time)
          ((raw.map normalizeTsx).map Candle.time) :=
        map_time_sortByTime_perm (raw.map normalizeTsx)
      exact hperm.nodup_iff.2 (hrs raw (List.mem_cons_self raw rs))
  have hpl := main raws [] (List.Pairwise.nil) hnodup
  exact ⟨hpl, hpl.map Candle.time fun _ _ h => ne_of_lt h⟩

/-- Witness for `sort_invariant_merges`: two successive batches — one of two
candles at times 10 and 20, one of two candles at times 5 and 10 — merge into
a strictly ascending, duplicate-free series. -/
theorem sort_invariant_merges_witness :
    (∀ raw ∈ [[({ time := .num 10000, open_ := 1, high := 1, low := 1, close := 1 } : RawCandle),
               { time := .num 20000, open_ := 2, high := 2, low := 2, close := 2 }],
              [({ time := .num 5000, open_ := 3, high := 3, low := 3, close := 3 } : RawCandle),
               { time := .num 10000, open_ := 4, high := 4, low := 4, close := 4 }]],
        ((raw.map normalizeTsx).map Candle.time).Nodup) ∧
      List.Pairwise (fun a b : Candle => a.time < b.time)
        ([[({ time := .num 10000, open_ := 1, high := 1, low := 1, close := 1 } : RawCandle),
           { time := .num 20000, open_ := 2, high := 2, low := 2, close := 2 }],
          [({ time := .num 5000, open_ := 3, high := 3, low := 3, close := 3 } : RawCandle),
           { time := .num 10000, open_ := 4, high := 4, low := 4, close := 4 }]].foldl
          (fun s raw => mergeOlder s (chartDataOfTsx raw)) []) := by
  have hnodup : ∀ raw ∈ [[({ time := .num 10000, open_ := 1, high := 1, low := 1, close := 1 } : RawCandle),
               { time := .num 20000, open_ := 2, high := 2, low := 2, close := 2 }],
              [({ time := .num 5000, open_ := 3, high := 3, low := 3, close := 3 } : RawCandle),
               { time := .num 10000, open_ := 4, high := 4, low := 4, close := 4 }]],
      ((raw.map normalizeTsx).map Candle.time).Nodup := by
    norm_num [normalizeTsx, normalizeTimeTsx, jsDateMs]
  exact ⟨hnodup, (sort_invariant_merges _ hnodup).1⟩

/-- Counterexample to C2 as stated: a single fetch whose raw body repeats the
same instant (time 1 as an ISO string, twice, with different OHLC values) is a
normalized, sorted fetch result, yet merging it into the empty series yields
a series whose `time` keys are not duplicate-free — the pipeline only
deduplicates incoming candles against the existing series, never against the
batch itself. -/
theorem sort_invariant_counterexample :
    ¬ (([[({ time := .iso 1, open_ := 1, high := 1, low := 1, close := 1 } : RawCandle),
          { time := .iso 1, open_ := 2, high := 2, low := 2, close := 2 }]].foldl
          (fun s raw => mergeOlder s (chartDataOfTsx raw)) []).map
        Candle.time).Nodup := by
  norm_num [chartDataOfTsx, sortByTime, normalizeTsx, normalizeTimeTsx, jsDateMs,
    mergeOlder, timeLE]

theorem orderedInsert_append (x : Candle) (as ys : List Candle)
    (h : ∀ y ∈ ys, timeLE x y) :
    List.orderedInsert timeLE x (as ++ ys) = List.orderedInsert timeLE x as ++ ys := by
  induction as with
  | nil =>
    cases ys with
    | nil => rfl
    | cons y ys =>
      simp only [List.nil_append, List.orderedInsert, List.orderedInsert_nil]
      rw [if_pos (h y (List.mem_cons_self y ys))]
      rfl
  | cons a as ih =>
    simp only [List.cons_append, List.orderedInsert]
    by_cases hxa : timeLE x a
    · rw [if_pos hxa, if_pos hxa]
      rfl
    · rw [if_neg hxa, if_neg hxa]
      simp only [List.append_eq]
      rw [ih, List.cons_append]

theorem insertionSort_append_sorted (xs ys : List Candle)
    (hys : List.Sorted timeLE ys)
    (h : ∀ x ∈ xs, ∀ y ∈ ys, timeLE x y) :
    List.insertionSort timeLE (xs ++ ys) = List.insertionSort timeLE xs ++ ys := by
  induction xs with
  | nil =>
    simpa using sortByTime_eq_of_sorted hys
  | cons x xs ih =>
    simp only [List.cons_append, List.insertionSort, List.append_eq]
    rw [ih fun a ha => h a (List.mem_cons_of_mem x ha)]
    exact orderedInsert_append x _ ys (h x (List.mem_cons_self x xs))

/-- A head insertion — every genuinely new incoming candle older than the
whole series — stably sorts to the new candles followed by the unchanged
series: the existing candles keep their relative order as a suffix. -/
theorem mergeOlder_head_insertion (prev batch : List Candle)
    (hsorted : List.Sorted timeLE prev)
    (hhead : ∀ c ∈ batch, c.time ∉ prev.map Candle.time → ∀ p ∈ prev, c.time < p.time) :
    mergeOlder prev batch =
      sortByTime (batch.filter fun d => !decide (d.time ∈ prev.map Candle.time)) ++ prev := by
  unfold mergeOlder sortByTime
  refine insertionSort_append_sorted _ _ hsorted ?_
  intro x hx y hy
  rw [List.mem_filter] at hx
  simp only [Bool.not_eq_eq_eq_not, Bool.not_true, decide_eq_false_iff_not] at hx
  exact le_of_lt (hhead x hx.1 hx.2 y hy)

theorem chartDataUpdate_growth (prevLen : Nat) (hprev : prevLen ≠ 0)
    (d : List Candle) (hlen : prevLen < d.length) (f t : Int) :
    chartDataUpdate prevLen (some (f, t)) d =
      (some (f + ((d.length : Int) - prevLen), t + ((d.length : Int) - prevLen)),
       d.length) := by
  unfold chartDataUpdate
  rw [if_neg (by omega), if_neg hprev, if_pos hlen]

theorem chartDataUpdate_nogrowth (prevLen : Nat) (hprev : prevLen ≠ 0)
    (d : List Candle) (hd : d.length ≠ 0) (hlen : ¬ prevLen < d.length) (f t : Int) :
    chartDataUpdate prevLen (some (f, t)) d = (some (f, t), d.length) := by
  unfold chartDataUpdate
  rw [if_neg hd, if_neg hprev, if_neg hlen]

/-- C5. Shift compensation: when a merge inserts its `k` genuinely new
candles entirely at the head (each new `time` below the whole series, which
is sorted and non-empty), the chart's data-update effect moves the visible
logical range `[f, t]` to `[f + k, t + k]`, and index `i + k` of the merged
series holds exactly the candle that index `i` held before — the on-screen
candles are unchanged (`CandleChart.tsx` lines 305-336). -/
theorem shift_compensation (prev batch : List Candle) (f t : Int)
    (hsorted : List.Sorted timeLE prev) (hne : prev ≠ [])
    (hhead : ∀ c ∈ batch, c.time ∉ prev.map Candle.time → ∀ p ∈ prev, c.time < p.time) :
    chartDataUpdate prev.length (some (f, t)) (mergeOlder prev batch) =
        (some (f + ((mergeOlder prev batch).length - prev.length : Nat),
               t + ((mergeOlder prev batch).length - prev.length : Nat)),
         (mergeOlder prev batch).length) ∧
      ∀ i : Nat,
        (mergeOlder prev batch)[i + ((mergeOlder prev batch).length - prev.length)]? =
          prev[i]? := by
  have hsplit := mergeOlder_head_insertion prev batch hsorted hhead
  have hlen : (mergeOlder prev batch).length =
      (batch.filter fun d => !decide (d.time ∈ prev.map Candle.time)).length +
        prev.length := by
    rw [hsplit, List.length_append, length_sortByTime]
  have hplen : prev.length ≠ 0 := by
    simpa [List.length_eq_zero] using hne
  constructor
  · by_cases hu : (batch.filter fun d => !decide (d.time ∈ prev.map Candle.time)).length = 0
    · rw [chartDataUpdate_nogrowth _ hplen _ (by omega) (by omega)]
      have hz : (mergeOlder prev batch).length - prev.length = 0 := by omega
      rw [hz]
      norm_num
    · rw [chartDataUpdate_growth _ hplen _ (by omega)]
      have hc : ((mergeOlder prev batch).length : Int) - (prev.length : Int) =
          (((mergeOlder prev batch).length - prev.length : Nat) : Int) := by omega
      rw [hc]
  · intro i
    have hk : (mergeOlder prev batch).length - prev.length =
        (sortByTime (batch.filter fun d =>
          !decide (d.time ∈ prev.map Candle.time))).length := by
      rw [length_sortByTime]; omega
    rw [hk, hsplit, List.getElem?_append_right (by omega)]
    congr 1
    omega

/-- Witness for `shift_compensation`: a series of one candle at time 2 with a
head insertion of one candle at time 1, visible range `[5, 9]`. -/
theorem shift_compensation_witness :
    chartDataUpdate [(⟨2, 0, 0, 0, 0⟩ : Candle)].length (some (5, 9))
        (mergeOlder [⟨2, 0, 0, 0, 0⟩] [⟨1, 0, 0, 0, 0⟩]) =
        (some ((5 : Int) + (((mergeOlder [(⟨2, 0, 0, 0, 0⟩ : Candle)] [⟨1, 0, 0, 0, 0⟩]).length -
                [(⟨2, 0, 0, 0, 0⟩ : Candle)].length : Nat) : Int),
               (9 : Int) + (((mergeOlder [(⟨2, 0, 0, 0, 0⟩ : Candle)] [⟨1, 0, 0, 0, 0⟩]).length -
                [(⟨2, 0, 0, 0, 0⟩ : Candle)].length : Nat) : Int)),
         (mergeOlder [(⟨2, 0, 0, 0, 0⟩ : Candle)] [⟨1, 0, 0, 0, 0⟩]).length) ∧
      ∀ i : Nat,
        (mergeOlder [(⟨2, 0, 0, 0, 0⟩ : Candle)]
            [⟨1, 0, 0, 0, 0⟩])[i + ((mergeOlder [(⟨2, 0, 0, 0, 0⟩ : Candle)]
              [⟨1, 0, 0, 0, 0⟩]).length - [(⟨2, 0, 0, 0, 0⟩ : Candle)].length)]? =
          [(⟨2, 0, 0, 0, 0⟩ : Candle)][i]? :=
  shift_compensation [⟨2, 0, 0, 0, 0⟩] [⟨1, 0, 0, 0, 0⟩] 5 9
    (by decide) (by decide) (by decide)

/-- C10. Shift on any growth (implicit behavior): whenever the new data array
is longer than the previous non-empty one, the chart shifts the visible range
by the length difference — it never checks whether the new candles were
prepended or appended. In particular for a pure tail-append (`d = data ++
tail`) the old indices still hold the old candles, so the shifted window
`[f + k, t + k]` displays different candles than `[f, t]` did
(`CandleChart.tsx` lines 318-330). -/
theorem shift_on_any_growth (prevLen k : Nat) (hprev : 0 < prevLen) (hk : 0 < k)
    (d : List Candle) (hlen : d.length = prevLen + k) (f t : Int) :
    chartDataUpdate prevLen (some (f, t)) d = (some (f + k, t + k), d.length) ∧
      ∀ (data tail : List Candle), d = data ++ tail →
        ∀ i : Nat, i < data.length → d[i]? = data[i]? := by
  constructor
  · rw [chartDataUpdate_growth prevLen (by omega) d (by omega)]
    have hc : ((d.length : Int) - prevLen) = (k : Int) := by omega
    rw [hc]
  · rintro data tail rfl i hi
    exact List.getElem?_append_left hi

/-- Witness for `shift_on_any_growth`: a two-candle array grown from a
one-candle array by a tail append, visible range `[0, 3]`. -/
theorem shift_on_any_growth_witness :
    chartDataUpdate 1 (some (0, 3)) [(⟨1, 0, 0, 0, 0⟩ : Candle), ⟨2, 0, 0, 0, 0⟩] =
        (some ((0 : Int) + ((1 : Nat) : Int), (3 : Int) + ((1 : Nat) : Int)),
         ([(⟨1, 0, 0, 0, 0⟩ : Candle), ⟨2, 0, 0, 0, 0⟩] : List Candle).length) ∧
      ∀ (data tail : List Candle),
        ([(⟨1, 0, 0, 0, 0⟩ : Candle), ⟨2, 0, 0, 0, 0⟩] : List Candle) = data ++ tail →
        ∀ i : Nat, i < data.length →
          ([(⟨1, 0, 0, 0, 0⟩ : Candle), ⟨2, 0, 0, 0, 0⟩] : List Candle)[i]? = data[i]? :=
  shift_on_any_growth 1 1 (by decide) (by decide)
    [⟨1, 0, 0, 0, 0⟩, ⟨2, 0, 0, 0, 0⟩] (by decide) 0 3

/-- A one-candle response body: time 1 as an ISO-8601 string, all prices 1. -/
def rcIso1 : RawCandle := { time := .iso 1, open_ := 1, high := 1, low := 1, close := 1 }

/-- The initial request, issued under the first selection (generation 0). -/
def mpC1r0 : Request := { token := 0, isLoadMore := false }

/-- State after mount: the initial fetch was issued and is in flight. -/
def mpC1s1 : MPState := (fetchData mpInit false).1

/-- State after the user changes symbol or timeframe while the initial fetch
is still in flight: the series is cleared, the new initial fetch is blocked by
the held `loadingRef`, and the old request is still outstanding. -/
def mpC1s2 : MPState := selectionChange mpC1s1

/-- Counterexample to C1 as stated: the request issued under generation 0 is
still in flight when the selection advances to generation 1; resolving it
afterwards DOES mutate the series — `MarketPage.tsx` applies every resolution
unconditionally, there is no token comparison to discard stale results. -/
theorem staleness_counterexample :
    mpC1r0 ∈ mpC1s2.inflight ∧
      mpC1s2.token = mpC1r0.token + 1 ∧
      (resolve mpC1s2 mpC1r0 [rcIso1]).data ≠ mpC1s2.data := by
  refine ⟨by decide, by decide, ?_⟩
  norm_num [resolve, mpC1s2, mpC1s1, mpC1r0, rcIso1, mpInit, selectionChange, fetchData,
    chartDataOfTsx, sortByTime, normalizeTsx, normalizeTimeTsx, jsDateMs]

/-- C1 — amended. Staleness is not handled: a fetch issued under a selection
token different from the current one is applied exactly as a fresh one — a
resolving non-loadMore request with a non-empty body replaces the series with
its own normalized, sorted batch, regardless of the token mismatch
(`MarketPage.tsx` lines 50-89 contain no token or selection check). -/
theorem stale_result_applied (s : MPState) (r : Request) (raw : List RawCandle)
    (_hstale : r.token ≠ s.token) (hlm : r.isLoadMore = false) (hraw : raw ≠ []) :
    (resolve s r raw).data = chartDataOfTsx raw := by
  simp [resolve, hlm, hraw]

/-- Witness for `stale_result_applied`: the concrete stale trace of
`staleness_counterexample` — the generation-0 request resolving after the
selection advanced to generation 1 overwrites the cleared series. -/
theorem stale_result_applied_witness :
    mpC1r0.token ≠ mpC1s2.token ∧ mpC1r0.isLoadMore = false ∧
      ([rcIso1] : List RawCandle) ≠ [] ∧
      (resolve mpC1s2 mpC1r0 [rcIso1]).data = chartDataOfTsx [rcIso1] :=
  ⟨by decide, by decide, by decide,
    stale_result_applied mpC1s2 mpC1r0 [rcIso1] (by decide) (by decide) (by decide)⟩

/-- State of the `part_001` loader with a user-triggered fetch in flight:
`fetchData(true)` has taken the guard. -/
def p1UserFetch : P1State :=
  (p1FetchData { data := [], isLoadingRef := false, inflight := [] } true).1

/-- Counterexample to C4 as stated: while a user-triggered (guarded) fetch is
in flight, an auto-update tick still issues its network call — afterwards a
guarded and an unguarded request are simultaneously in flight for the same
series. The interval callback of `src/unnamed/part_001` lines 118-139 calls
`fetch` directly and never consults `isLoadingRef`. -/
theorem live_refresh_counterexample :
    p1UserFetch.isLoadingRef = true ∧
      (p1AutoTick p1UserFetch).2 = true ∧
      ({ viaGuard := true } : P1Req) ∈ (p1AutoTick p1UserFetch).1.inflight ∧
      ({ viaGuard := false } : P1Req) ∈ (p1AutoTick p1UserFetch).1.inflight := by
  decide

/-- C4 — amended. The periodic auto-update fetch bypasses the loading guard
entirely: in every state a tick issues a network call, appends an unguarded
request to the in-flight set, and neither reads nor writes `isLoadingRef` —
so it can run concurrently with a user-triggered historical fetch. -/
theorem autoupdate_bypasses_guard (s : P1State) :
    (p1AutoTick s).2 = true ∧
      (p1AutoTick s).1.inflight = s.inflight ++ [{ viaGuard := false }] ∧
      (p1AutoTick s).1.isLoadingRef = s.isLoadingRef :=
  ⟨rfl, rfl, rfl⟩

/-- The initial request of the exhaustion trace. -/
def mpC7req1 : Request := { token := 0, isLoadMore := false }

/-- The subsequent "older" (load-more) request of the exhaustion trace. -/
def mpC7req2 : Request := { token := 0, isLoadMore := true }

/-- State after the initial fetch resolved with one candle. -/
def mpC7s2 : MPState := resolve (fetchData mpInit false).1 mpC7req1 [rcIso1]

/-- State after an "older" fetch was issued and resolved with an empty body. -/
def mpC7s4 : MPState := resolve (fetchData mpC7s2 true).1 mpC7req2 []

/-- Counterexample to C7 as stated: after an "older" fetch returned an empty
sequence, the component state is exactly what it was before that fetch — no
exhausted flag exists anywhere in it — and a further "older" trigger issues
another network call instead of being disabled. -/
theorem exhausted_counterexample :
    mpC7s4 = mpC7s2 ∧ (fetchData mpC7s4 true).2 = true := by
  constructor
  · norm_num [mpC7s4, mpC7s2, resolve, fetchData, mpInit, mpC7req1, mpC7req2,
      chartDataOfTsx, sortByTime, normalizeTsx, normalizeTimeTsx, jsDateMs]
  · norm_num [mpC7s4, mpC7s2, resolve, fetchData, mpInit, mpC7req1, mpC7req2]

/-- C7 — amended. An empty response body makes `fetchData` return early: the
series is left untouched and the loading guard is released, but no exhausted
state is recorded, and the very next "older" trigger issues another network
call (`MarketPage.tsx` lines 52-55; the chart's load-more callback at
`CandleChart.tsx` lines 253-259 likewise checks no exhausted condition). -/
theorem empty_result_no_exhausted (s : MPState) (r : Request) :
    (resolve s r []).data = s.data ∧ (resolve s r []).loadingRef = false ∧
      (fetchData (resolve s r []) true).2 = true :=
  ⟨rfl, rfl, rfl⟩

/-- Counterexample to C8 as stated: the numeric epoch-seconds value
1735689600 and the ISO-8601 string for the same instant do NOT map to the
same key in `MarketPage.tsx` — the numeric value is passed through
`new Date(number)`, which reads it as milliseconds, so it lands at
1735689600/1000 while the string lands at 1735689600. -/
theorem normalization_counterexample :
    normalizeTimeTsx (RawTime.num 1735689600) ≠ normalizeTimeTsx (RawTime.iso 1735689600) ∧
      normalizeTimeTsx (RawTime.iso 1735689600) = (1735689600 : ℚ) ∧
      normalizeTimeTsx (RawTime.num 1735689600) = (1735689600 : ℚ) / 1000 := by
  norm_num [normalizeTimeTsx, jsDateMs]

/-- C8 — amended. Only the `src/unnamed/part_001` loader normalizes both
representations of an instant to the same canonical epoch-seconds key (it
branches on `typeof`); the `MarketPage.tsx` loader is correct for ISO-8601
strings only. In both loaders normalization is applied in the `map` step,
before the sort and the merge. -/
theorem normalization_p1_canonical (e : Int) :
    normalizeTimeP1 (RawTime.iso e) = (e : ℚ) ∧
      normalizeTimeP1 (RawTime.num e) = (e : ℚ) ∧
      normalizeTimeTsx (RawTime.iso e) = (e : ℚ) := by
  refine ⟨?_, rfl, ?_⟩ <;>
  · show ((1000 * e : Int) : ℚ) / 1000 = (e : ℚ)
    push_cast
    rw [mul_comm, mul_div_assoc]
    norm_num

end GoldLoader
